import Mathlib

/-!
Verification of the RabbitMQ docker example service (`src/api.ts`) and of the
broker routing core its specification describes.

Part 1 embeds the REST wrapper in `src/api.ts`: the message shape used on the
`tasks` queue, the `POST /messages` producer handler, the consumer callback
with its retry / dead-letter logic, and the connect / initialize sequence.

Part 2 models, from the specification, the broker-core components that the
repository only documents (BindingIndex matching, ConsumerDispatcher with
prefetch, Queue dead-lettering).
-/

/-- A message as the wrapper publishes it over amqplib: an opaque body buffer,
an optional `x-retry-count` header (absent when the publish call passes no
headers), and the `persistent` option (false when the options argument is
absent). -/
structure AmqpMessage where
  content : String
  retryCount : Option Nat
  persistent : Bool
deriving Repr, DecidableEq

/-- The body produced by `Buffer.from(JSON.stringify(\x7b content: message,
timestamp: new Date().toISOString() \x7d))` in the producer endpoint,
parametrised by the timestamp string. -/
def stringifyBody (message ts : String) : String :=
  "\x7b\"content\":\"" ++ message ++ "\",\"timestamp\":\"" ++ ts ++ "\"\x7d"

/-- State visible to the HTTP handlers: whether `channel` is non-null, and the
contents of the two queues the wrapper touches. -/
structure ApiState where
  channel : Bool
  tasks : List AmqpMessage
  deadLetterQueue : List AmqpMessage
deriving Repr, DecidableEq

/-- The `POST /messages` handler (`src/api.ts` lines 52-82): 503 when the
channel is null, 400 when the body has no `message` field, otherwise
`sendToQueue('tasks', ..., \x7b persistent: true, headers: \x7b x-retry-count: 0 \x7d \x7d)`
and a 200 response. Returns the HTTP status and the new state. -/
def postMessages (s : ApiState) (body : Option String) (ts : String) : Nat × ApiState :=
  if s.channel = false then (503, s)
  else
    match body with
    | none => (400, s)
    | some message =>
        (200, { s with tasks := s.tasks ++ [⟨stringifyBody message ts, some 0, true⟩] })

/-- One effect the consumer callback performs on the channel. `sendToQueue`
carries the full message the call publishes (body, headers, persistence);
`publishToExchange` likewise carries the message that the exchange publish
creates. -/
inductive ConsumeAction where
  | ack
  | sendToQueue (queue : String) (m : AmqpMessage)
  | publishToExchange (exchange routingKey : String) (m : AmqpMessage)
deriving Repr, DecidableEq

/-- The message created by `channel.sendToExchange('dlx_exchange', 'failed',
msg.content)`: the call passes no options object, so the copy has no headers
and is not persistent; only the raw body is forwarded. -/
def exchangeCopy (body : String) : AmqpMessage :=
  ⟨body, none, false⟩

/-- The consumer callback of `startConsumer` (`src/api.ts` lines 89-124) on a
non-null delivery, as the list of channel effects it performs in order.
`ok` is whether processing (JSON parse + simulated work) succeeds. On failure
the code reads `msg.properties.headers['x-retry-count']`; when it is below 3
it re-publishes `msg.content` to `tasks` with the count incremented and
`persistent: true`, otherwise it forwards `msg.content` to `dlx_exchange`
with routing key `failed`; in both failure branches it then acks the original
delivery. (A delivery lacking the header compares `undefined < 3`, which is
false, so it takes the dead-letter branch.) -/
def handleDelivery (msg : AmqpMessage) (ok : Bool) : List ConsumeAction :=
  if ok then [.ack]
  else
    match msg.retryCount with
    | some n =>
        if n < 3 then
          [.sendToQueue "tasks" ⟨msg.content, some (n + 1), true⟩, .ack]
        else
          [.publishToExchange "dlx_exchange" "failed" (exchangeCopy msg.content), .ack]
    | none =>
        [.publishToExchange "dlx_exchange" "failed" (exchangeCopy msg.content), .ack]

/-- The requeued copy that a failed delivery produces, if any: the first
`sendToQueue` effect among the callback's actions. -/
def requeuedOnFailure (msg : AmqpMessage) : Option AmqpMessage :=
  (handleDelivery msg false).findSome? fun a =>
    match a with
    | .sendToQueue _ m => some m
    | _ => none

/-- The chain of successive requeued copies obtained by failing a message over
and over, cut off at `k` steps. -/
def failChain (k : Nat) (msg : AmqpMessage) : List AmqpMessage :=
  match k with
  | 0 => []
  | k + 1 =>
      match requeuedOnFailure msg with
      | some m => m :: failChain k m
      | none => []

/-- Whether an action is an `ack` of the original delivery. -/
def isAck : ConsumeAction → Bool
  | .ack => true
  | _ => false

example : handleDelivery ⟨"b", some 0, true⟩ false
    = [.sendToQueue "tasks" ⟨"b", some 1, true⟩, .ack] := by decide

example : handleDelivery ⟨"b", some 3, true⟩ false
    = [.publishToExchange "dlx_exchange" "failed" ⟨"b", none, false⟩, .ack] := by decide

example : failChain 9 ⟨"b", some 0, true⟩
    = [⟨"b", some 1, true⟩, ⟨"b", some 2, true⟩, ⟨"b", some 3, true⟩] := by decide

/-- Process-level state for the startup sequence: whether the module-level
`channel` variable is non-null, whether `channel.consume` has registered the
consumer, and whether the HTTP server is listening. -/
structure SysState where
  channel : Bool
  consumerRegistered : Bool
  serverListening : Bool
deriving Repr, DecidableEq

/-- Initial module state: `channel = null`, nothing registered, not listening. -/
def sysInit : SysState :=
  ⟨false, false, false⟩

/-- One invocation of `connectRabbitMQ` (`src/api.ts` lines 18-41): on success
the connection and channel are established; on failure the state is unchanged
and a reconnect via `setTimeout(connectRabbitMQ, 5000)` is scheduled — the
scheduled callback is `connectRabbitMQ` itself and nothing else. -/
def connectRabbitMQ (success : Bool) (s : SysState) : SysState :=
  if success then { s with channel := true } else s

/-- One invocation of `startConsumer` (`src/api.ts` lines 85-131): when the
channel is null it returns immediately; otherwise it registers the consumer
via `channel.consume`. -/
def startConsumer (s : SysState) : SysState :=
  if s.channel then { s with consumerRegistered := true } else s

/-- The `initialize` function (`src/api.ts` lines 134-142): await
`connectRabbitMQ` (whose first attempt succeeds or fails per `firstOk`), then
await `startConsumer`, then start the HTTP listener. -/
def initializeServer (firstOk : Bool) : SysState :=
  let s1 := connectRabbitMQ firstOk sysInit
  let s2 := startConsumer s1
  { s2 with serverListening := true }

/-- A reconnect timer firing: it runs `connectRabbitMQ` again (succeeding or
not); no code path invokes `startConsumer` after initialization. -/
def reconnectStep (s : SysState) (success : Bool) : SysState :=
  connectRabbitMQ success s

/-- The `GET /check` handler's rabbitmq field (`src/api.ts` lines 44-49). -/
def healthCheckRabbit (s : SysState) : String :=
  if s.channel then "connected" else "disconnected"

example : (initializeServer false).consumerRegistered = false := by decide
example : (List.foldl reconnectStep (initializeServer false) [false, true]).channel = true := by
  decide

/-- A binding of a BindingIndex: one bound queue with its routing pattern. -/
structure Binding where
  queue : String
  pattern : String
deriving Repr, DecidableEq

/-- Modelled from the spec: the Direct arm of `BindingIndex.match` — "pattern
equals routing key, byte-exact". The repository only documents the broker's
Direct matching; this models it. Returns the matching bound queue names with
duplicates collapsed. -/
def directMatch (bindings : List Binding) (routingKey : String) : List String :=
  ((bindings.filter fun b => b.pattern = routingKey).map Binding.queue).dedup

/-- Splits the character list on `.`, accumulating the current segment;
empty segments are kept, as with splitting on a separator. -/
def splitSegsAux : List Char → String → List String
  | [], acc => [acc]
  | c :: cs, acc =>
      if c = '.' then acc :: splitSegsAux cs "" else splitSegsAux cs (acc.push c)

/-- Splits a string on `.` into its dot-separated segments (the spec's
"split routing key and pattern on `.`"); the empty string yields one empty
segment. -/
def splitSegs (s : String) : List String :=
  splitSegsAux s.data ""

/-- Tests whether `f` accepts some suffix of the segment list (the list
itself included): this is how `#` consumes zero or more remaining segments. -/
def matchesSomeSuffix (f : List String → Bool) : List String → Bool
  | [] => f []
  | k :: ks => f (k :: ks) || matchesSomeSuffix f ks

/-- Modelled from the spec: segment-level Topic matching — "split routing key
and pattern on `.`, perform a recursive match where `*` consumes exactly one
segment and `#` consumes any number (including zero) of remaining segments".
The repository only documents the broker's Topic matching; this models it.
First argument is the pattern's segments, second the routing key's. -/
def topicSegMatch : List String → List String → Bool
  | [], ks => ks.isEmpty
  | p :: ps, ks =>
      if p = "#" then
        matchesSomeSuffix (topicSegMatch ps) ks
      else
        match ks with
        | [] => false
        | k :: ks' => (p = "*" || p = k) && topicSegMatch ps ks'

/-- Modelled from the spec: the Topic arm of `BindingIndex.match`, splitting
pattern and routing key on `.` and delegating to `topicSegMatch`. -/
def topicMatch (pattern routingKey : String) : Bool :=
  topicSegMatch (splitSegs pattern) (splitSegs routingKey)

example : topicMatch "app.#" "app" = true := by decide
example : topicMatch "app.#" "app.x.y.z" = true := by decide
example : topicMatch "app.*" "app" = false := by decide
example : directMatch [⟨"q1", "express"⟩] "Express" = [] := by decide

/-- State of a ConsumerDispatcher for one queue with a single registered
consumer: the ready messages in order, the ids delivered but not yet
acked/nacked, and the log of all deliveries made so far. -/
structure DispatchState where
  ready : List Nat
  unacked : List Nat
  delivered : List Nat
deriving Repr, DecidableEq

/-- Events driving the dispatcher: a publish enqueuing a message, a dispatch
attempt (triggered on enqueue, registration, or a freed prefetch slot), and
the consumer acking or nacking an outstanding delivery. -/
inductive DispEvent where
  | enqueue (id : Nat)
  | dispatch
  | ack (id : Nat)
  | nack (id : Nat) (requeue : Bool)
deriving Repr, DecidableEq

/-- Dispatcher state at consumer registration: nothing ready, outstanding or
delivered. -/
def dispatchInit : DispatchState :=
  ⟨[], [], []⟩

/-- Modelled from the spec: one ConsumerDispatcher transition under a prefetch
limit — a message is pulled from ready and delivered only while the count of
delivered-but-unacknowledged messages is below the prefetch limit; ack frees
the slot; nack frees it and optionally requeues to head. The repository only
documents the dispatcher; this models it. -/
def dispStep (prefetch : Nat) (s : DispatchState) : DispEvent → DispatchState
  | .enqueue id => { s with ready := s.ready ++ [id] }
  | .dispatch =>
      if s.unacked.length < prefetch then
        match s.ready with
        | [] => s
        | m :: rest =>
            { ready := rest, unacked := s.unacked ++ [m],
              delivered := s.delivered ++ [m] }
      else s
  | .ack id => { s with unacked := s.unacked.erase id }
  | .nack id requeue =>
      { s with unacked := s.unacked.erase id,
               ready := if requeue then id :: s.ready else s.ready }

/-- Runs the dispatcher from registration over a sequence of events. -/
def dispRun (prefetch : Nat) (evs : List DispEvent) : DispatchState :=
  evs.foldl (dispStep prefetch) dispatchInit

example : (dispRun 1 [.enqueue 7, .dispatch, .enqueue 8, .dispatch]).delivered = [7] := by
  decide
example : (dispRun 1 [.enqueue 7, .dispatch, .enqueue 8, .ack 7, .dispatch]).delivered
    = [7, 8] := by decide

/-- A message inside the modelled broker core: identity, body, original
routing key, dead-letter lineage (queue names it was dead-lettered from, in
order), and delivery attempt count. -/
structure SpecMessage where
  id : Nat
  body : String
  routingKey : String
  lineage : List String
  attempts : Nat
deriving Repr, DecidableEq

/-- A queue's configuration: name, optional dead-letter exchange and optional
dead-letter routing-key override. -/
structure QueueCfg where
  name : String
  dlx : Option String
  dlKey : Option String
deriving Repr, DecidableEq

/-- Broker state for the dead-letter model: each queue's configuration with
its stored messages, and the direct bindings `(exchange, pattern, queue)`. -/
structure BrokerState where
  queues : List (QueueCfg × List SpecMessage)
  bindings : List (String × String × String)
deriving Repr, DecidableEq

/-- Applies `f` to the store of the named queue, leaving other queues as they
are. -/
def updateQueue (st : BrokerState) (name : String)
    (f : List SpecMessage → List SpecMessage) : BrokerState :=
  { st with queues := st.queues.map fun p => if p.1.name = name then (p.1, f p.2) else p }

/-- Appends a message at the tail of the named queue's store. -/
def enqueueTo (st : BrokerState) (qname : String) (m : SpecMessage) : BrokerState :=
  updateQueue st qname (· ++ [m])

/-- Modelled from the spec: publishing a message to a direct exchange — every
binding of that exchange whose pattern equals the routing key fires, with
duplicate queue targets collapsed, and a copy is enqueued into each matched
queue. The repository only documents the broker's exchange publish; this
models it. -/
def exchangePublish (st : BrokerState) (ex key : String) (m : SpecMessage) : BrokerState :=
  let targets :=
    ((st.bindings.filter fun b => b.1 = ex ∧ b.2.1 = key).map fun b => b.2.2).dedup
  targets.foldl (fun s q => enqueueTo s q m) st

/-- Modelled from the spec: `Queue.deadLetter` — if a dead-letter exchange is
configured, re-publish the message to it, appending this queue's name to the
message's dead-letter lineage and incrementing nothing else, under the
configured dead-letter routing key or, if unset, the message's original
routing key; with no DLX the message is dropped. The repository only
documents the queue's dead-letter decision; this models it. -/
def deadLetter (st : BrokerState) (q : QueueCfg) (m : SpecMessage) : BrokerState :=
  match q.dlx with
  | some ex => exchangePublish st ex (q.dlKey.getD m.routingKey) { m with lineage := m.lineage ++ [q.name] }
  | none => st

/-- Modelled from the spec: `nack(tag, messageId, requeue: false)` — the
rejected message is removed from the owning queue's store and handed to the
dead-letter path with its delivery attempt count incremented first. The
repository only documents the nack path; this models it. -/
def nackNoRequeue (st : BrokerState) (qname : String) (mid : Nat) : BrokerState :=
  match st.queues.find? (fun p => p.1.name = qname) with
  | none => st
  | some (cfg, store) =>
      match store.find? (fun x => x.id = mid) with
      | none => st
      | some m =>
          let st1 := updateQueue st qname fun s => s.filter fun x => ¬ x.id = mid
          deadLetter st1 cfg { m with attempts := m.attempts + 1 }

/-- Retrieves the named queue's store (empty when the queue does not exist). -/
def queueStore (st : BrokerState) (name : String) : List SpecMessage :=
  ((st.queues.find? fun p => p.1.name = name).map fun p => p.2).getD []

example :
    queueStore
      (nackNoRequeue
        ⟨[(⟨"tasks", some "dlx_exchange", some "failed"⟩, [⟨1, "A", "rk", [], 0⟩]),
          (⟨"dead_letter_queue", none, none⟩, [])],
         [("dlx_exchange", "failed", "dead_letter_queue")]⟩
        "tasks" 1)
      "dead_letter_queue"
    = [⟨1, "A", "rk", ["tasks"], 1⟩] := by decide

/-! Helper lemmas. -/

lemma requeuedOnFailure_eq (msg : AmqpMessage) (n : Nat) (h : msg.retryCount = some n) :
    requeuedOnFailure msg
      = if n < 3 then some ⟨msg.content, some (n + 1), true⟩ else none := by
  by_cases hn : n < 3 <;> simp [requeuedOnFailure, handleDelivery, h, hn, List.findSome?]

lemma failChain_length_le (k : Nat) :
    ∀ msg n, msg.retryCount = some n → (failChain k msg).length ≤ 3 - n := by
  induction k with
  | zero => intro msg n _; simp [failChain]
  | succ k ih =>
      intro msg n h
      rw [failChain, requeuedOnFailure_eq msg n h]
      by_cases hn : n < 3
      · simp only [hn, if_true, List.length_cons]
        have := ih ⟨msg.content, some (n + 1), true⟩ (n + 1) rfl
        omega
      · simp [hn]

/-- C1: in the consumer's failure branch the attempt limit is checked before
any requeue: with `x-retry-count = n < 3` the delivery is re-published to
`tasks` with the count incremented by exactly 1 (then acked); with `n ≥ 3` it
is instead published to the dead-letter exchange `dlx_exchange` under routing
key `failed`; and along any chain of consecutive failures the number of
requeues is bounded by `3 - n`, so a message starting at count `n` is never
requeued more than 3 times. -/
theorem c1_retry_limit (msg : AmqpMessage) (n : Nat) (h : msg.retryCount = some n) :
    (n < 3 →
      handleDelivery msg false
        = [.sendToQueue "tasks" ⟨msg.content, some (n + 1), true⟩, .ack]) ∧
    (3 ≤ n →
      handleDelivery msg false
        = [.publishToExchange "dlx_exchange" "failed" (exchangeCopy msg.content), .ack]) ∧
    (∀ k, (failChain k msg).length ≤ 3 - n) := by
  refine ⟨fun hn => ?_, fun hn => ?_, fun k => failChain_length_le k msg n h⟩
  · simp [handleDelivery, h, hn]
  · simp [handleDelivery, h, Nat.not_lt.mpr hn]

/-- Witness for C1 at a concrete failing message with count 0: it is requeued
with count 1, and a chain of consecutive failures requeues at most 3 times. -/
theorem c1_retry_limit_witness :
    handleDelivery ⟨"b", some 0, true⟩ false
      = [.sendToQueue "tasks" ⟨"b", some 1, true⟩, .ack]
    ∧ (failChain 9 ⟨"b", some 0, true⟩).length ≤ 3 :=
  ⟨(c1_retry_limit ⟨"b", some 0, true⟩ 0 rfl).1 (by decide),
   (c1_retry_limit ⟨"b", some 0, true⟩ 0 rfl).2.2 9⟩

/-- C8: on every control path of the consumer callback the delivered message
is acked exactly once, and the ack is the last effect — in particular on the
failure path the ack follows the requeue republish or the dead-letter
publish, so the retry is a fresh publish and the original delivery never
stays unacked. -/
theorem c8_ack_exactly_once (msg : AmqpMessage) (ok : Bool) :
    (handleDelivery msg ok).countP isAck = 1 ∧
    (handleDelivery msg ok).getLast? = some .ack := by
  cases ok with
  | true => simp [handleDelivery, isAck, List.countP, List.countP.go]
  | false =>
      cases h : msg.retryCount with
      | none => simp [handleDelivery, h, isAck, List.countP, List.countP.go]
      | some n =>
          by_cases hn : n < 3 <;>
            simp [handleDelivery, h, hn, isAck, List.countP, List.countP.go]

/-- C9: the dead-letter forward after exhausted retries carries only the raw
body: the published copy has the same body bytes, no `x-retry-count` header
(no headers at all), and no persistence flag, because the exchange publish
passes no options object. -/
theorem c9_dlx_forwards_only_body (msg : AmqpMessage) (n : Nat)
    (hn : msg.retryCount = some n) (h3 : 3 ≤ n) :
    handleDelivery msg false
      = [.publishToExchange "dlx_exchange" "failed" (exchangeCopy msg.content), .ack] ∧
    (exchangeCopy msg.content).content = msg.content ∧
    (exchangeCopy msg.content).retryCount = none ∧
    (exchangeCopy msg.content).persistent = false := by
  refine ⟨?_, rfl, rfl, rfl⟩
  simp [handleDelivery, hn, Nat.not_lt.mpr h3]

/-- Witness for C9 at a concrete message with count 3. -/
theorem c9_dlx_forwards_only_body_witness :
    handleDelivery ⟨"b", some 3, true⟩ false
      = [.publishToExchange "dlx_exchange" "failed" (exchangeCopy "b"), .ack] ∧
    (exchangeCopy "b").content = "b" ∧
    (exchangeCopy "b").retryCount = none ∧
    (exchangeCopy "b").persistent = false :=
  c9_dlx_forwards_only_body ⟨"b", some 3, true⟩ 3 rfl (by decide)

/-- C7: when the producer endpoint rejects a request for a validation reason
(null channel, giving 503, or missing `message` field, giving 400), the
returned state is exactly the input state — no message has been enqueued and
no queue changed. -/
theorem c7_fail_fast (s : ApiState) (body : Option String) (ts : String)
    (h : s.channel = false ∨ body = none) :
    (postMessages s body ts).2 = s ∧
    ((postMessages s body ts).1 = 503 ∨ (postMessages s body ts).1 = 400) := by
  rcases h with h | h
  · simp [postMessages, h]
  · cases hc : s.channel <;> simp [postMessages, h, hc]

/-- Witness for C7: a disconnected-channel state returns 503 and is left
untouched. -/
theorem c7_fail_fast_witness :
    (postMessages ⟨false, [], []⟩ (some "hello") "t").2 = ⟨false, [], []⟩ ∧
    ((postMessages ⟨false, [], []⟩ (some "hello") "t").1 = 503 ∨
     (postMessages ⟨false, [], []⟩ (some "hello") "t").1 = 400) :=
  c7_fail_fast ⟨false, [], []⟩ (some "hello") "t" (Or.inl rfl)

/-- C4: attempt-count lifecycle — a successful producer publish enqueues its
message with `x-retry-count = 0` (every task not already present before the
call carries count 0); the success path of the consumer performs no publish
at all; and the only queue publish the consumer ever performs is the
redelivery to `tasks`, whose copy carries exactly the old count plus 1. -/
theorem c4_attempt_count_lifecycle (s : ApiState) (body ts : String)
    (msg : AmqpMessage) (ok : Bool) (hch : s.channel = true) :
    (∀ m' ∈ (postMessages s (some body) ts).2.tasks,
        m' ∈ s.tasks ∨ m'.retryCount = some 0) ∧
    handleDelivery msg true = [.ack] ∧
    (∀ q m', ConsumeAction.sendToQueue q m' ∈ handleDelivery msg ok →
        q = "tasks" ∧ ∃ n, msg.retryCount = some n ∧ m'.retryCount = some (n + 1)) := by
  refine ⟨?_, rfl, ?_⟩
  · intro m' hm'
    simp only [postMessages, hch] at hm'
    rcases List.mem_append.mp hm' with h | h
    · exact Or.inl h
    · simp only [List.mem_singleton] at h
      subst h
      exact Or.inr rfl
  · intro q m' hmem
    cases ok with
    | true => simp [handleDelivery] at hmem
    | false =>
        cases h : msg.retryCount with
        | none => simp [handleDelivery, h] at hmem
        | some n =>
            by_cases hn : n < 3
            · simp only [handleDelivery, h, hn, if_true, if_neg Bool.false_ne_true] at hmem
              rcases List.mem_pair.mp hmem with he | he
              · cases he
                exact ⟨rfl, n, rfl, rfl⟩
              · cases he
            · simp [handleDelivery, h, hn] at hmem

/-- Witness for C4 at a concrete connected state and failing message. -/
theorem c4_attempt_count_lifecycle_witness :
    (∀ m' ∈ (postMessages ⟨true, [], []⟩ (some "hi") "t").2.tasks,
        m' ∈ ([] : List AmqpMessage) ∨ m'.retryCount = some 0) ∧
    handleDelivery ⟨"b", some 1, true⟩ true = [.ack] ∧
    (∀ q m', ConsumeAction.sendToQueue q m' ∈ handleDelivery ⟨"b", some 1, true⟩ false →
        q = "tasks" ∧
        ∃ n, (AmqpMessage.mk "b" (some 1) true).retryCount = some n ∧
          m'.retryCount = some (n + 1)) :=
  c4_attempt_count_lifecycle ⟨true, [], []⟩ "hi" "t" ⟨"b", some 1, true⟩ false rfl

/-- C5: Direct-exchange matching — a queue is among the queues returned by
the Direct `match` for routing key `k` precisely when some binding binds that
queue with a pattern equal to `k` as a string, byte-exactly (Lean string
equality is byte equality; no case folding, no trimming). -/
theorem c5_direct_match (bindings : List Binding) (k q : String) :
    q ∈ directMatch bindings k ↔ ∃ b ∈ bindings, b.queue = q ∧ b.pattern = k := by
  simp only [directMatch, List.mem_dedup, List.mem_map, List.mem_filter,
    decide_eq_true_eq]
  constructor
  · rintro ⟨b, ⟨hb, hpat⟩, hq⟩
    exact ⟨b, hb, hq, hpat⟩
  · rintro ⟨b, hb, hq, hpat⟩
    exact ⟨b, ⟨hb, hpat⟩, hq⟩

/-- C6: Topic wildcard semantics — `#` at the head of a pattern matches
exactly when the rest of the pattern matches some suffix of the routing key's
segments (zero or more segments consumed); `*` consumes exactly one segment
(and cannot match an empty remainder); and concretely the pattern `app.#`
matches the routing keys `app`, `app.x` and `app.x.y.z`. -/
theorem c6_topic_wildcards :
    (∀ ps ks, topicSegMatch ("#" :: ps) ks = true ↔
        ∃ i, i ≤ ks.length ∧ topicSegMatch ps (ks.drop i) = true) ∧
    (∀ ps k ks, topicSegMatch ("*" :: ps) (k :: ks) = topicSegMatch ps ks) ∧
    (∀ ps, topicSegMatch ("*" :: ps) [] = false) ∧
    topicMatch "app.#" "app" = true ∧
    topicMatch "app.#" "app.x" = true ∧
    topicMatch "app.#" "app.x.y.z" = true := by
  refine ⟨?_, ?_, ?_, by decide, by decide, by decide⟩
  · intro ps ks
    rw [show topicSegMatch ("#" :: ps) ks = matchesSomeSuffix (topicSegMatch ps) ks by
      simp [topicSegMatch]]
    induction ks with
    | nil =>
        simp only [matchesSomeSuffix, List.length_nil]
        constructor
        · intro hf
          exact ⟨0, Nat.le_refl 0, hf⟩
        · rintro ⟨i, hi, hf⟩
          interval_cases i
          exact hf
    | cons k ks ih =>
        simp only [matchesSomeSuffix, Bool.or_eq_true, ih, List.length_cons]
        constructor
        · rintro (hf | ⟨i, hi, hf⟩)
          · exact ⟨0, Nat.zero_le _, hf⟩
          · exact ⟨i + 1, by omega, hf⟩
        · rintro ⟨i, hi, hf⟩
          cases i with
          | zero => exact Or.inl hf
          | succ i => exact Or.inr ⟨i, by omega, hf⟩
  · intro ps k ks
    simp [topicSegMatch]
  · intro ps
    simp [topicSegMatch]

lemma dispStep_unacked_le (s : DispatchState) (e : DispEvent)
    (h : s.unacked.length ≤ 1) : (dispStep 1 s e).unacked.length ≤ 1 := by
  cases e with
  | enqueue id => exact h
  | dispatch =>
      simp only [dispStep]
      split
      · rename_i hlt
        cases s.ready with
        | nil => exact h
        | cons m rest => simp only [List.length_append, List.length_singleton]; omega
      · exact h
  | ack id => exact Nat.le_trans (List.Sublist.length_le (List.erase_sublist _ _)) h
  | nack id requeue =>
      exact Nat.le_trans (List.Sublist.length_le (List.erase_sublist _ _)) h

lemma dispRun_unacked_le_aux (evs : List DispEvent) :
    ∀ s : DispatchState, s.unacked.length ≤ 1 →
      (evs.foldl (dispStep 1) s).unacked.length ≤ 1 := by
  induction evs with
  | nil => intro s h; exact h
  | cons e evs ih => intro s h; exact ih _ (dispStep_unacked_le s e h)

/-- C3: prefetch=1 gating — a single consumer registered with prefetch 1
never has more than one outstanding (delivered-but-unacknowledged) message
after any event sequence, and while one delivery is outstanding a dispatch
attempt delivers nothing: the delivery log does not grow until the
outstanding message is acked or nacked. -/
theorem c3_prefetch_one_gating (evs : List DispEvent) :
    (dispRun 1 evs).unacked.length ≤ 1 ∧
    ((dispRun 1 evs).unacked ≠ [] →
      dispStep 1 (dispRun 1 evs) .dispatch = dispRun 1 evs) := by
  have hlen : (dispRun 1 evs).unacked.length ≤ 1 :=
    dispRun_unacked_le_aux evs dispatchInit (by simp [dispatchInit])
  refine ⟨hlen, fun hne => ?_⟩
  have hone : (dispRun 1 evs).unacked.length = 1 := by
    have := List.length_pos.mpr hne
    omega
  simp [dispStep, hone]

/-- Witness for C3: after one enqueue and one dispatch the message is
outstanding, and a further dispatch changes nothing (in particular no second
delivery happens). -/
theorem c3_prefetch_one_gating_witness :
    (dispRun 1 [.enqueue 5, .dispatch]).unacked.length ≤ 1 ∧
    dispStep 1 (dispRun 1 [.enqueue 5, .dispatch]) .dispatch
      = dispRun 1 [.enqueue 5, .dispatch] :=
  ⟨(c3_prefetch_one_gating [.enqueue 5, .dispatch]).1,
   (c3_prefetch_one_gating [.enqueue 5, .dispatch]).2 (by decide)⟩

lemma reconnect_preserves_consumer (outs : List Bool) :
    ∀ s : SysState, (outs.foldl reconnectStep s).consumerRegistered
      = s.consumerRegistered := by
  induction outs with
  | nil => intro s; rfl
  | cons b outs ih =>
      intro s
      rw [List.foldl_cons, ih]
      cases b <;> simp [reconnectStep, connectRabbitMQ]

lemma reconnect_channel_true (outs : List Bool) :
    ∀ s : SysState, s.channel = true →
      (outs.foldl reconnectStep s).channel = true := by
  induction outs with
  | nil => intro s h; exact h
  | cons b outs ih =>
      intro s h
      rw [List.foldl_cons]
      refine ih _ ?_
      cases b <;> simp [reconnectStep, connectRabbitMQ, h]

lemma reconnect_channel_of_mem (outs : List Bool) (h : true ∈ outs) :
    ∀ s : SysState, (outs.foldl reconnectStep s).channel = true := by
  induction outs with
  | nil => cases h
  | cons b outs ih =>
      intro s
      rw [List.foldl_cons]
      cases b with
      | true =>
          exact reconnect_channel_true outs _ (by simp [reconnectStep, connectRabbitMQ])
      | false =>
          have hmem : true ∈ outs := by simpa using h
          exact ih hmem _

/-- C10: when the first connection attempt fails, `startConsumer` runs with a
null channel and registers nothing, and the scheduled reconnects only rerun
`connectRabbitMQ` — so after any sequence of reconnect outcomes containing a
success, the channel is up and `/check` reports `connected`, yet the consumer
is still not registered: consumption never begins. -/
theorem c10_consumer_never_starts (outs : List Bool) (h : true ∈ outs) :
    (outs.foldl reconnectStep (initializeServer false)).consumerRegistered = false ∧
    (outs.foldl reconnectStep (initializeServer false)).channel = true ∧
    healthCheckRabbit (outs.foldl reconnectStep (initializeServer false))
      = "connected" := by
  have hreg : (outs.foldl reconnectStep (initializeServer false)).consumerRegistered
      = false := by
    rw [reconnect_preserves_consumer]
    rfl
  have hch := reconnect_channel_of_mem outs h (initializeServer false)
  exact ⟨hreg, hch, by simp [healthCheckRabbit, hch]⟩

/-- Witness for C10: the first attempt fails, a later reconnect succeeds; the
health check then says connected but the consumer was never registered. -/
theorem c10_consumer_never_starts_witness :
    ([false, true].foldl reconnectStep (initializeServer false)).consumerRegistered
      = false ∧
    ([false, true].foldl reconnectStep (initializeServer false)).channel = true ∧
    healthCheckRabbit ([false, true].foldl reconnectStep (initializeServer false))
      = "connected" :=
  c10_consumer_never_starts [false, true] (by decide)

/-- Configuration of the originating queue with its dead-letter exchange and
routing-key override, as in the repository's topology. -/
def tasksCfg : QueueCfg :=
  ⟨"tasks", some "dlx_exchange", some "failed"⟩

/-- Configuration of the dead-letter queue (no DLX of its own). -/
def dlqCfg : QueueCfg :=
  ⟨"dead_letter_queue", none, none⟩

/-- Broker state with the originating queue holding `S`, the dead-letter
queue holding `D`, and `dead_letter_queue` bound to `dlx_exchange` under
routing key `failed`. -/
def dlxState (S D : List SpecMessage) : BrokerState :=
  ⟨[(tasksCfg, S), (dlqCfg, D)], [("dlx_exchange", "failed", "dead_letter_queue")]⟩

lemma queueStore_dlx_tasks (S D : List SpecMessage) :
    queueStore (dlxState S D) "tasks" = S := rfl

lemma queueStore_dlx_dlq (S D : List SpecMessage) :
    queueStore (dlxState S D) "dead_letter_queue" = D := rfl

lemma nack_dlx_eq (S D : List SpecMessage) (m : SpecMessage)
    (hfind : S.find? (fun x => x.id = m.id) = some m) :
    nackNoRequeue (dlxState S D) "tasks" m.id
      = dlxState (S.filter fun x => ¬ x.id = m.id)
          (D ++ [⟨m.id, m.body, m.routingKey, m.lineage ++ ["tasks"], m.attempts + 1⟩]) := by
  simp [nackNoRequeue, dlxState, tasksCfg, dlqCfg, hfind, updateQueue, deadLetter,
        exchangePublish, enqueueTo, List.find?, List.filter, List.dedup]

/-- C2: dead-letter round-trip — rejecting a message without requeue on a
queue whose dead-letter exchange is configured lands the message (same id and
body) in the dead-letter queue with the originating queue's name appended to
its dead-letter lineage, and no message with that id remains in the
originating queue. -/
theorem c2_dead_letter_round_trip (S D : List SpecMessage) (m : SpecMessage)
    (hfind : S.find? (fun x => x.id = m.id) = some m) :
    (∃ m' ∈ queueStore (nackNoRequeue (dlxState S D) "tasks" m.id) "dead_letter_queue",
        m'.id = m.id ∧ m'.body = m.body ∧ "tasks" ∈ m'.lineage) ∧
    ∀ x ∈ queueStore (nackNoRequeue (dlxState S D) "tasks" m.id) "tasks",
        ¬ x.id = m.id := by
  rw [nack_dlx_eq S D m hfind, queueStore_dlx_dlq, queueStore_dlx_tasks]
  constructor
  · exact ⟨⟨m.id, m.body, m.routingKey, m.lineage ++ ["tasks"], m.attempts + 1⟩,
      by simp, rfl, rfl, by simp⟩
  · intro x hx
    simpa using (List.mem_filter.mp hx).2

/-- Witness for C2: one stored message with id 1 and body `A`; after the nack
it sits in the dead-letter queue with `tasks` in its lineage and the
originating queue holds no message with id 1. -/
theorem c2_dead_letter_round_trip_witness :
    (∃ m' ∈ queueStore (nackNoRequeue (dlxState [⟨1, "A", "rk", [], 0⟩] []) "tasks" 1)
          "dead_letter_queue",
        m'.id = 1 ∧ m'.body = "A" ∧ "tasks" ∈ m'.lineage) ∧
    ∀ x ∈ queueStore (nackNoRequeue (dlxState [⟨1, "A", "rk", [], 0⟩] []) "tasks" 1)
        "tasks", ¬ x.id = 1 :=
  c2_dead_letter_round_trip [⟨1, "A", "rk", [], 0⟩] [] ⟨1, "A", "rk", [], 0⟩ (by decide)

